import Mathlib

/-!
Shallow embedding of the EpicMarks loyalty-sync webhook handler
(`src/unnamed/part_000`, the HMAC-verified / alias-rich / debug-capable
revision that the specification treats as authoritative, together with the
`src/api/hook.js` revision where the two diverge).

JavaScript values reachable by the handler are modelled by `JVal`
(JSON values: null, booleans, numbers, strings, objects, arrays);
JS numbers are modelled by `JNum` with exact rationals for the finite
values plus NaN and the two infinities.  `undefined` is represented by
`Option.none` at use sites (absent object key, missing value).
-/

namespace LoyaltySync

/-- Model of a JavaScript number: a finite value (exact rational), NaN,
or one of the two infinities. -/
inductive JNum where
  | finite (q : ℚ)
  | nan
  | posInf
  | negInf
deriving DecidableEq, Repr

/-- Model of a JavaScript/JSON value as the handler can observe it. -/
inductive JVal where
  | null
  | bool (b : Bool)
  | num (n : JNum)
  | str (s : String)
  | obj (fields : List (String × JVal))
  | arr (elems : List JVal)
deriving Repr

/-- JS truthiness: `false`, `0`, `-0`, `NaN`, `""`, `null`, `undefined`
are falsy, everything else (including `{}` and `[]`) truthy.
(`undefined` is handled by the `Option` layer at use sites.) -/
def jsTruthy : JVal → Bool
  | .null => false
  | .bool b => b
  | .num (.finite q) => q != 0
  | .num .nan => false
  | .num .posInf => true
  | .num .negInf => true
  | .str s => s != ""
  | .obj _ => true
  | .arr _ => true

/-- Property access `v.k` / `v?.k` for the string keys the source uses:
an object yields its own property, every other value yields `undefined`
(none of the accessed keys exists on strings, arrays, numbers or booleans;
the source never dereferences `null` without `?.` on these paths). -/
def JVal.get : JVal → String → Option JVal
  | .obj fs, k => fs.lookup k
  | _, _ => none

/-- Optional-chained access `v?.k` where `v` may already be `undefined`. -/
def oget (v : Option JVal) (k : String) : Option JVal :=
  v.bind (JVal.get · k)

/-- Index access `v?.[i]`: array element, character of a string, else
`undefined`. -/
def JVal.idx : JVal → Nat → Option JVal
  | .arr xs, i => xs.get? i
  | .str s, i => (s.toList.get? i).map (fun c => .str (String.mk [c]))
  | _, _ => none

/-- Optional-chained index `v?.[i]`. -/
def oidx (v : Option JVal) (i : Nat) : Option JVal :=
  v.bind (JVal.idx · i)

/-- Source `x || null`: keep a truthy value, replace a falsy/absent one by null
(modelled as `none`). -/
def truthyOpt (v : Option JVal) : Option JVal :=
  match v with
  | some x => if jsTruthy x then some x else none
  | none => none

/-- First truthy value of a JS `||` chain (`a || b || ...`), `none` when
all operands are falsy or absent. -/
def firstTruthy : List (Option JVal) → Option JVal
  | [] => none
  | v :: rest =>
    match v with
    | some x => if jsTruthy x then some x else firstTruthy rest
    | none => firstTruthy rest

/-- Characters of a string with surrounding whitespace removed
(JS `String.prototype.trim` on the ASCII whitespace the program meets). -/
def trimChars (cs : List Char) : List Char :=
  ((cs.dropWhile Char.isWhitespace).reverse.dropWhile Char.isWhitespace).reverse

/-- Source `s.replace(/,/g, "")`: drop every comma. -/
def stripCommas (s : String) : String :=
  String.mk (s.toList.filter (fun c => c != ','))

/-- Source `String.prototype.toLowerCase` on the ASCII range the program meets. -/
def lowerString (s : String) : String :=
  String.mk (s.toList.map Char.toLower)

/-- Source `String.prototype.startsWith`. -/
def jsStartsWith (s p : String) : Bool :=
  p.toList.isPrefixOf s.toList

/-- Decimal digit string to natural number. -/
def digitsVal (cs : List Char) : Nat :=
  cs.foldl (fun a c => a * 10 + (c.toNat - 48)) 0

/-- Unsigned decimal literal as JS `Number` accepts it: digits with an
optional fraction part (`"12"`, `"12."`, `".5"`, `"1.25"`). -/
def parseUnsignedDec (cs : List Char) : Option ℚ :=
  let intPart := cs.takeWhile Char.isDigit
  let rest := cs.dropWhile Char.isDigit
  match rest with
  | [] => if intPart.isEmpty then none else some ((digitsVal intPart : Nat) : ℚ)
  | '.' :: frac =>
    if frac.all Char.isDigit && !(intPart.isEmpty && frac.isEmpty) then
      some ((digitsVal intPart : ℚ) + (digitsVal frac : ℚ) / ((10 : ℚ) ^ frac.length))
    else none
  | _ => none

/-- JS `Number(string)` on the fragment the program exercises: trimmed
empty string is 0, `Infinity` with optional sign, signed decimal
literals; anything else is NaN.  (Hex and exponent notations are not
modelled; no claim depends on them.) -/
def jsStringToNum (s : String) : JNum :=
  let t := trimChars s.toList
  if t.isEmpty then .finite 0
  else
    match t with
    | '+' :: rest =>
      if rest == "Infinity".toList then .posInf
      else
        match parseUnsignedDec rest with
        | some q => .finite q
        | none => .nan
    | '-' :: rest =>
      if rest == "Infinity".toList then .negInf
      else
        match parseUnsignedDec rest with
        | some q => .finite (-q)
        | none => .nan
    | cs =>
      if cs == "Infinity".toList then .posInf
      else
        match parseUnsignedDec cs with
        | some q => .finite q
        | none => .nan

/-- Source `Number(x)` for a one-element array (JS stringifies the element and
parses that); recursion bottoms out on nested singleton arrays. -/
def arrSingletonNum : JVal → JNum
  | .null => .finite 0
  | .bool _ => .nan
  | .num n => n
  | .str s => jsStringToNum s
  | .obj _ => .nan
  | .arr [] => .finite 0
  | .arr [y] => arrSingletonNum y
  | .arr (_ :: _ :: _) => .nan

/-- JS `Number(v)` coercion: null is 0, booleans are 0/1, strings parse,
plain objects are NaN, arrays go through their string form (empty is 0,
singleton is its element's numeric form, longer joins contain a comma and
are NaN). -/
def jsToNumber : JVal → JNum
  | .null => .finite 0
  | .bool true => .finite 1
  | .bool false => .finite 0
  | .num n => n
  | .str s => jsStringToNum s
  | .obj _ => .nan
  | .arr [] => .finite 0
  | .arr [x] => arrSingletonNum x
  | .arr (_ :: _ :: _) => .nan

/-- Source `Number(typeof v === "string" ? v.replace(/,/g, "") : v)` — the
coercion inside `toNum` (part_000 line 43): strings get grouping commas
stripped first. -/
def numCoerce : JVal → JNum
  | .str s => jsStringToNum (stripCommas s)
  | v => jsToNumber v

/-- Source `toNum` (part_000 lines 41–45): `undefined`/`null` give the default,
otherwise coerce to a number and keep it only when finite. -/
def toNum (v : Option JVal) (d : ℚ) : ℚ :=
  match v with
  | none => d
  | some .null => d
  | some w =>
    match numCoerce w with
    | .finite q => q
    | _ => d

/-- Source `bool` (part_000 line 40): `!!(v === true || v === "true" || v === 1
|| v === "1")`. -/
def bool (v : JVal) : Bool :=
  match v with
  | .bool b => b
  | .str s => s == "true" || s == "1"
  | .num (.finite q) => if q = 1 then true else false
  | _ => false

/-- Source `asJson` (part_000 lines 30–38): strings are JSON-parsed with the
fallback on a parse failure, non-null objects (including arrays) pass
through, everything else gives the fallback.  `parse` abstracts
`JSON.parse` on strings; a `none` result models the parse throwing. -/
def asJson (parse : String → Option JVal) (input : Option JVal) (fallback : JVal) : JVal :=
  match input with
  | some (.str s) => (parse s).getD fallback
  | some (.obj fs) => .obj fs
  | some (.arr xs) => .arr xs
  | _ => fallback

/-- Source `raw && typeof raw === "object" && Object.keys(raw).length > 0`
(part_000 line 56). -/
def hasDataJ : JVal → Bool
  | .obj fs => !fs.isEmpty
  | .arr xs => !xs.isEmpty
  | _ => false

/-- The fixed `??`-chain of points alias keys (part_000 lines 62–68),
current name first. -/
def pointsAliasKeys : List String :=
  ["availablePoints", "pointBalance", "pointsBalance", "balance", "points", "point_balance"]

/-- Referral alias keys (part_000 lines 75–80). -/
def referralAliasKeys : List String :=
  ["referralLink", "referral_url", "referralUrl", "referral_link", "referral"]

/-- VIP tier alias keys (part_000 lines 83–86). -/
def vipAliasKeys : List String :=
  ["currentVipTier", "currentVip", "vipTier"]

/-- A JS `??` chain over object properties: first key whose value is
present and non-null wins (`??` skips both `undefined` and `null`). -/
def chainLookup (raw : JVal) : List String → Option JVal
  | [] => none
  | k :: ks =>
    match raw.get k with
    | some .null => chainLookup raw ks
    | some v => some v
    | none => chainLookup raw ks

/-- Source `pointsCandidate` (part_000 lines 62–71): the alias chain, then —
only when every alias is `undefined` or `null` — the credited-minus-spent
difference, guarded by `!== undefined` (so a null `creditedPoints` or
`spentAmount` still enters the difference branch). -/
def pointsCandidate (raw : JVal) : Option JVal :=
  match chainLookup raw pointsAliasKeys with
  | some v => some v
  | none =>
    if (raw.get "creditedPoints").isSome && (raw.get "spentAmount").isSome then
      some (.num (.finite (toNum (raw.get "creditedPoints") 0 - toNum (raw.get "spentAmount") 0)))
    else none

/-- Source `enabled` (part_000 lines 58–60): explicit `enabled` key is coerced
with `bool`, otherwise `hasData || raw.customerStatus === "ACTIVE"`. -/
def enabledOf (raw : JVal) : Bool :=
  match raw.get "enabled" with
  | some v => bool v
  | none =>
    hasDataJ raw ||
      (match raw.get "customerStatus" with
       | some (.str s) => s == "ACTIVE"
       | _ => false)

/-- The fixed-shape normalized loyalty record (part_000 line 89).
`referral` and `vipTier` carry whatever JS value the alias chain selected
(the source does not coerce them to strings). -/
structure LoyaltyProfile where
  enabled : Bool
  points : ℚ
  referral : JVal
  vipTier : JVal
deriving Repr

/-- Source `normalizeLoyalty` (part_000 lines 55–90). -/
def normalizeLoyalty (raw : JVal) : LoyaltyProfile :=
  let enabled := enabledOf raw
  let points := toNum (pointsCandidate raw) 0
  let referral := (chainLookup raw referralAliasKeys).getD (.str "")
  let vipTier := (chainLookup raw vipAliasKeys).getD (.str "")
  { enabled := enabled, points := points, referral := referral, vipTier := vipTier }

/-- A JS value position is nullish when it is absent (`undefined`) or
null — exactly the values a `??` chain skips. -/
def isNullish (o : Option JVal) : Prop := o = none ∨ o = some .null

/-! ## Effect layer

Each outbound network operation the handler performs is recorded as a
`Call`; a fallible computation is a pair of an `Except` outcome (an
`error` models a thrown-and-uncaught JS exception carrying the error
message) and the list of calls issued. -/

/-- One outbound request to a collaborator system. -/
inductive Call where
  | shopifyCustomerGet (id : JVal)
  | shopifyCustomerSearch (email : String)
  | shopifyMetafields (id : JVal)
  | hubspotSearch (email : String)
  | hubspotCreate (email : String)
  | hubspotPatch (id : Option JVal) (properties : JVal)
deriving Repr

/-- A fallible, call-logging computation. -/
abbrev Step (α : Type) := Except String α × List Call

/-- Return a value, no calls. -/
def stepOk {α : Type} (a : α) : Step α := (.ok a, [])

/-- Throw a JS exception with the given message. -/
def stepFail {α : Type} (e : String) : Step α := (.error e, [])

/-- Sequencing: a thrown exception short-circuits, logs concatenate. -/
def bindStep {α β : Type} (x : Step α) (f : α → Step β) : Step β :=
  match x with
  | (.error e, l) => (.error e, l)
  | (.ok a, l) =>
    let y := f a
    (y.1, l ++ y.2)

/-- Abstract HTTP response from a collaborator: the status code, the
outcome of `r.json()` (`none` models the parse throwing) and the text
body used in error messages. -/
structure HttpResp where
  status : Nat
  jsonBody : Option JVal
  textBody : String

/-- Source `r.ok`: status in the 2xx range. -/
def HttpResp.isOk (r : HttpResp) : Bool :=
  decide (200 ≤ r.status) && decide (r.status < 300)

/-- The external world a single invocation runs against: whether the
required environment variables are set, the outcome of the black-box
HMAC check on this request (the spec treats signature verification as a
boolean predicate), the behaviour of `JSON.parse`, and one oracle per
collaborator endpoint.  An `Except.error` from an oracle models the
transport (`fetch`) itself throwing. -/
structure World where
  envOk : Bool
  hmacOk : Bool
  jsonParse : String → Option JVal
  customerGet : JVal → Except String HttpResp
  customerSearch : String → Except String HttpResp
  metafieldsGet : JVal → Except String HttpResp
  hsSearchResp : String → Except String HttpResp
  hsCreateResp : String → Except String HttpResp
  hsPatchResp : Option JVal → JVal → Except String HttpResp

/-- Generic error message for `r.json()` throwing on a non-JSON body. -/
def jsonThrowMsg : String := "Unexpected token in JSON"

/-- Source `(value || "").toLowerCase()`: absent or falsy gives `""`, a truthy
string is lower-cased, a truthy non-string throws (no `toLowerCase`
method). -/
def lowerOrEmpty (v : Option JVal) : Except String String :=
  match v with
  | none => .ok ""
  | some (.str s) => .ok (lowerString s)
  | some x =>
    if jsTruthy x then .error "TypeError: toLowerCase is not a function"
    else .ok ""

/-- Source `getCustomerEmailById` (part_000 lines 128–133): non-2xx gives null,
otherwise `(j?.customer?.email || "").toLowerCase() || null`. -/
def getCustomerEmailById (w : World) (cid : JVal) : Step (Option String) :=
  match w.customerGet cid with
  | .error e => (.error e, [.shopifyCustomerGet cid])
  | .ok r =>
    if !r.isOk then (.ok none, [.shopifyCustomerGet cid])
    else
      match r.jsonBody with
      | none => (.error jsonThrowMsg, [.shopifyCustomerGet cid])
      | some j =>
        match lowerOrEmpty (firstTruthy [oget (oget (some j) "customer") "email"]) with
        | .error e => (.error e, [.shopifyCustomerGet cid])
        | .ok s => (.ok (if s == "" then none else some s), [.shopifyCustomerGet cid])

/-- Source `getCustomerIdByEmail` (part_000 lines 135–141): non-2xx gives null,
otherwise `j?.customers?.[0]?.id || null`. -/
def getCustomerIdByEmail (w : World) (email : String) : Step (Option JVal) :=
  match w.customerSearch email with
  | .error e => (.error e, [.shopifyCustomerSearch email])
  | .ok r =>
    if !r.isOk then (.ok none, [.shopifyCustomerSearch email])
    else
      match r.jsonBody with
      | none => (.error jsonThrowMsg, [.shopifyCustomerSearch email])
      | some j =>
        (.ok (truthyOpt (oget (oidx (oget (some j) "customers") 0) "id")),
         [.shopifyCustomerSearch email])

/-- Result of the loyalty metafield fetch: the 404 marker object
`{notFound: true}`, or `{data, raw}`. -/
inductive MetaResult where
  | notFound
  | found (data : JVal) (raw : JVal)
deriving Repr

/-- Source `getLoyaltyByCustomerId` (part_000 lines 143–158): 404 gives the
not-found marker; any other non-2xx throws; an absent or falsy
`metafields[0].value` gives `{data: {}, raw: null}`; a string value is
JSON-parsed with `asJson` (empty-object fallback), with `parsed || {}`
as data. -/
def getLoyaltyByCustomerId (w : World) (cid : JVal) : Step MetaResult :=
  match w.metafieldsGet cid with
  | .error e => (.error e, [.shopifyMetafields cid])
  | .ok r =>
    if r.status == 404 then (.ok .notFound, [.shopifyMetafields cid])
    else if !r.isOk then
      (.error ("Shopify metafield fetch failed: " ++ toString r.status ++ " " ++ r.textBody),
       [.shopifyMetafields cid])
    else
      match r.jsonBody with
      | none => (.error jsonThrowMsg, [.shopifyMetafields cid])
      | some j =>
        let mval := oget (oidx (oget (some j) "metafields") 0) "value"
        match mval with
        | none => (.ok (.found (.obj []) .null), [.shopifyMetafields cid])
        | some v =>
          if !jsTruthy v then (.ok (.found (.obj []) .null), [.shopifyMetafields cid])
          else
            let parsed :=
              match v with
              | .str s => asJson w.jsonParse (some (.str s)) (.obj [])
              | _ => v
            (.ok (.found (if jsTruthy parsed then parsed else .obj []) v),
             [.shopifyMetafields cid])

/-- Source `x.id` with a plain (non-optional) member access, as in
`hsSearchContactIdsByEmail`'s map and `hsCreateContact`'s `j.id`:
throws on null, yields the property on objects, `undefined` elsewhere. -/
def dotAccess (v : JVal) (k : String) : Except String (Option JVal) :=
  match v with
  | .null => .error "TypeError: cannot read properties of null"
  | .obj fs => .ok (fs.lookup k)
  | _ => .ok none

/-- Source `hsSearchContactIdsByEmail` (part_000 lines 162–180): non-2xx throws
`HubSpot search failed`, otherwise `(j?.results || []).map(x => x.id)`.
The search request asks for matches on the exact email, sorted by
`createdate` descending (newest first), capped at 20. -/
def hsSearchContactIdsByEmail (w : World) (email : String) : Step (List (Option JVal)) :=
  match w.hsSearchResp email with
  | .error e => (.error e, [.hubspotSearch email])
  | .ok r =>
    if !r.isOk then
      (.error ("HubSpot search failed: " ++ toString r.status ++ " " ++ r.textBody),
       [.hubspotSearch email])
    else
      match r.jsonBody with
      | none => (.error jsonThrowMsg, [.hubspotSearch email])
      | some j =>
        match firstTruthy [oget (some j) "results"] with
        | none => (.ok [], [.hubspotSearch email])
        | some (.arr xs) =>
          match xs.mapM (fun x => dotAccess x "id") with
          | .error e => (.error e, [.hubspotSearch email])
          | .ok ids => (.ok ids, [.hubspotSearch email])
        | some _ => (.error "TypeError: map is not a function", [.hubspotSearch email])

/-- Source `hsCreateContact` (part_000 lines 182–194): non-2xx throws
`HubSpot create failed`, otherwise the new contact's `j.id`. -/
def hsCreateContact (w : World) (email : String) : Step (Option JVal) :=
  match w.hsCreateResp email with
  | .error e => (.error e, [.hubspotCreate email])
  | .ok r =>
    if !r.isOk then
      (.error ("HubSpot create failed: " ++ toString r.status ++ " " ++ r.textBody),
       [.hubspotCreate email])
    else
      match r.jsonBody with
      | none => (.error jsonThrowMsg, [.hubspotCreate email])
      | some j =>
        match dotAccess j "id" with
        | .error e => (.error e, [.hubspotCreate email])
        | .ok i => (.ok i, [.hubspotCreate email])

/-- Source `hsPatchContact` (part_000 lines 196–206): non-2xx throws
`HubSpot patch failed`. -/
def hsPatchContact (w : World) (id : Option JVal) (properties : JVal) : Step Unit :=
  match w.hsPatchResp id properties with
  | .error e => (.error e, [.hubspotPatch id properties])
  | .ok r =>
    if !r.isOk then
      (.error ("HubSpot patch failed: " ++ toString r.status ++ " " ++ r.textBody),
       [.hubspotPatch id properties])
    else (.ok (), [.hubspotPatch id properties])

/-- Source `Promise.all(ids.map(id => hsPatchContact(id, properties)))`,
modelled sequentially: the observable effect (all listed contacts are
patched, and any failing sibling fails the whole group) is preserved;
the in-flight interleaving itself is not modelled. -/
def patchAll (w : World) (properties : JVal) : List (Option JVal) → Step Unit
  | [] => stepOk ()
  | id :: rest =>
    bindStep (hsPatchContact w id properties) fun _ => patchAll w properties rest

/-! ## Webhook dispatcher -/

/-- The inbound request as the handler observes it: method, the
`x-shopify-topic` header (already passed through `String(... || "")`),
the raw body string (part_000 reads it for HMAC and parses it itself),
the platform-parsed `req.body` (used by the hook.js revision), and the
two query flags. -/
structure Request where
  method : String
  topic : String
  rawBody : String
  bodyPre : Option JVal
  skipHmacQ : Bool
  debugQ : Bool

/-- An HTTP response produced by the handler. -/
structure Response where
  status : Nat
  body : JVal
deriving Repr

/-- Source `const UPDATE_ALL_DUPLICATES = true` (part_000 line 26). -/
def UPDATE_ALL_DUPLICATES : Bool := true

/-- Identity hints extracted from a classified event, or the ignored /
thrown outcomes. -/
inductive Extract where
  | ignored
  | ident (email : String) (customerId : Option JVal)
  | err (msg : String)

/-- Topic classification and identity extraction, part_000 lines
238–247: `customers/*` reads top-level `email`/`id`; `orders/paid` or
`orders/*` reads top-level `email` falling back to `customer.email`,
and `customer.id`; other topics are ignored. -/
def extractIdentity (topic : String) (body : JVal) : Extract :=
  if jsStartsWith topic "customers/" then
    match lowerOrEmpty (firstTruthy [body.get "email"]) with
    | .error e => .err e
    | .ok email => .ident email (truthyOpt (body.get "id"))
  else if topic == "orders/paid" || jsStartsWith topic "orders/" then
    match lowerOrEmpty (firstTruthy [body.get "email", oget (body.get "customer") "email"]) with
    | .error e => .err e
    | .ok email => .ident email (truthyOpt (oget (body.get "customer") "id"))
  else .ignored

/-- Same extraction in the hook.js revision (lines 208–216): the
`orders/*` branch reads only `customer.email`, with no top-level email
fallback and no `orders/paid` special case. -/
def extractIdentityHook (topic : String) (body : JVal) : Extract :=
  if jsStartsWith topic "customers/" then
    match lowerOrEmpty (firstTruthy [body.get "email"]) with
    | .error e => .err e
    | .ok email => .ident email (truthyOpt (body.get "id"))
  else if jsStartsWith topic "orders/" then
    match lowerOrEmpty (firstTruthy [oget (body.get "customer") "email"]) with
    | .error e => .err e
    | .ok email => .ident email (truthyOpt (oget (body.get "customer") "id"))
  else .ignored

/-- Identity backfill, part_000 lines 249–261.  First block: id present
but email missing looks the email up by id.  Second block: guarded by
`if (!email)` — it re-reads `body.email`, and only inside that guard
would look the id up by email; since the extraction already took
`body.email` whenever truthy, the guard makes the id-by-email lookup
unreachable. -/
def backfill (w : World) (body : JVal) (email0 : String) (cid0 : Option JVal) :
    Step (String × Option JVal) :=
  bindStep
    (if cid0.isSome && email0 == "" then
      match cid0 with
      | some cid =>
        bindStep (getCustomerEmailById w cid) fun foundEmail =>
          stepOk ((match foundEmail with | some s => s | none => email0), cid0)
      | none => stepOk (email0, cid0)
    else stepOk (email0, cid0))
    fun ec =>
      if ec.1 == "" then
        match lowerOrEmpty (firstTruthy [body.get "email"]) with
        | .error e => stepFail e
        | .ok orderEmail =>
          if orderEmail != "" then
            if ec.2.isNone then
              bindStep (getCustomerIdByEmail w orderEmail) fun idByEmail =>
                stepOk (orderEmail, idByEmail)
            else stepOk (orderEmail, ec.2)
          else stepOk (ec.1, ec.2)
      else stepOk (ec.1, ec.2)

/-- Identity backfill in the hook.js revision (lines 219–222): only the
id-to-email direction exists. -/
def backfillHook (w : World) (email0 : String) (cid0 : Option JVal) :
    Step (String × Option JVal) :=
  if cid0.isSome && email0 == "" then
    match cid0 with
    | some cid =>
      bindStep (getCustomerEmailById w cid) fun foundEmail =>
        stepOk ((match foundEmail with | some s => s | none => email0), cid0)
    | none => stepOk (email0, cid0)
  else stepOk (email0, cid0)

/-- Metafield fetch with the stale-id fallback, part_000 lines 266–275
(identical in hook.js lines 228–238): fetch by the webhook's id; on the
not-found marker, re-resolve the id by email search and, when an id is
found, retry the fetch exactly once with it, adopting it as the id
actually used. -/
def fetchWithFallback (w : World) (email : String) (cid : JVal) : Step (JVal × MetaResult) :=
  bindStep (getLoyaltyByCustomerId w cid) fun meta =>
    match meta with
    | .notFound =>
      bindStep (getCustomerIdByEmail w email) fun idByEmail =>
        match idByEmail with
        | some id2 =>
          bindStep (getLoyaltyByCustomerId w id2) fun meta2 => stepOk (id2, meta2)
        | none => stepOk (cid, MetaResult.notFound)
    | m => stepOk (cid, m)

/-- Source `meta?.data || {}` (part_000 line 277; hook.js's
`if (meta?.data) loyaltyRaw = meta.data` computes the same value). -/
def metaData : MetaResult → JVal
  | .notFound => .obj []
  | .found d _ => if jsTruthy d then d else .obj []

/-- Build a JSON object literal whose entries with `undefined` values
are dropped (as `res.json`'s serialization does). -/
def mkObj (fields : List (String × Option JVal)) : JVal :=
  .obj (fields.filterMap (fun p => p.2.map (fun v => (p.1, v))))

/-- An `undefined` array element serializes as `null`. -/
def optToJs (v : Option JVal) : JVal := v.getD .null

/-- The normalized profile as it appears in the response's `loyalty`
field. -/
def profileJson (n : LoyaltyProfile) : JVal :=
  .obj [("enabled", .bool n.enabled), ("points", .num (.finite n.points)),
        ("referral", n.referral), ("vipTier", n.vipTier)]

/-- The HubSpot properties object written by part_000 (lines 281–286). -/
def propsJson (n : LoyaltyProfile) : JVal :=
  .obj [("loyalty_enabled", .bool n.enabled), ("loyalty_points", .num (.finite n.points)),
        ("loyalty_referral_link", n.referral), ("loyalty_tier", n.vipTier)]

/-- The HubSpot properties object written by hook.js (lines 245–251):
the `loyalty_tier` line is commented out there. -/
def propsJsonHook (n : LoyaltyProfile) : JVal :=
  .obj [("loyalty_enabled", .bool n.enabled), ("loyalty_points", .num (.finite n.points)),
        ("loyalty_referral_link", n.referral)]

/-- The optional `debug` extension of success responses. -/
def debugFields (debugQ : Bool) (usedId : JVal) (meta : MetaResult) (rawLoyalty : JVal) :
    List (String × Option JVal) :=
  if debugQ then
    [("debug", some (mkObj
      [("usedCustomerId", some usedId),
       ("metafield", match meta with | .notFound => none | .found _ r => some r),
       ("parsed", some rawLoyalty)]))]
  else []

/-- The 400 body, part_000 line 263. -/
def missingIdentityBody (topic : String) : JVal :=
  .obj [("error", .str "Missing email or customerId after lookup"), ("topic", .str topic)]

/-- Contact reconciliation, part_000 lines 289–326 (identical in
hook.js lines 254–292 up to the properties object): search contacts by
email; zero matches create-then-patch; one match — or any number of
matches when the update-all policy is off — patch `ids[0]` (the newest,
as the search sorts newest first) and, when there were several matches,
report the full `ids` list under `duplicates`; otherwise patch every
match and report the full list under `duplicatesUpdated`. -/
def reconcile (w : World) (updateAll debugQ : Bool) (topic email : String)
    (norm : LoyaltyProfile) (properties : JVal) (usedId : JVal) (meta : MetaResult)
    (rawLoyalty : JVal) : Step Response :=
  bindStep (hsSearchContactIdsByEmail w email) fun ids =>
    if ids.length == 0 then
      bindStep (hsCreateContact w email) fun newId =>
        bindStep (hsPatchContact w newId properties) fun _ =>
          stepOk ⟨200, mkObj ([("ok", some (.bool true)), ("created", newId),
            ("email", some (.str email)), ("topic", some (.str topic)),
            ("loyalty", some (profileJson norm))] ++ debugFields debugQ usedId meta rawLoyalty)⟩
    else if ids.length == 1 || !updateAll then
      let targetId := (ids.get? 0).getD none
      bindStep (hsPatchContact w targetId properties) fun _ =>
        stepOk ⟨200, mkObj ([("ok", some (.bool true)), ("updated", targetId),
          ("email", some (.str email)),
          ("duplicates", if ids.length > 1 then some (.arr (ids.map optToJs)) else none),
          ("topic", some (.str topic)),
          ("loyalty", some (profileJson norm))] ++ debugFields debugQ usedId meta rawLoyalty)⟩
    else
      bindStep (patchAll w properties ids) fun _ =>
        stepOk ⟨200, mkObj ([("ok", some (.bool true)),
          ("duplicatesUpdated", some (.arr (ids.map optToJs))),
          ("email", some (.str email)), ("topic", some (.str topic)),
          ("loyalty", some (profileJson norm))] ++ debugFields debugQ usedId meta rawLoyalty)⟩

/-- Source `module.exports` of part_000 (lines 210–327).  Note there is no
try/catch around the pipeline in this revision: an `Except.error`
outcome is an exception escaping the exported handler. -/
def handler (w : World) (req : Request) : Step Response :=
  if req.method != "POST" then stepOk ⟨200, .str "OK"⟩
  else if !w.envOk then stepFail "Missing env var"
  else if !req.skipHmacQ && !w.hmacOk then
    stepOk ⟨401, .obj [("error", .str "Invalid HMAC")]⟩
  else
    let body := asJson w.jsonParse (some (.str req.rawBody)) (.obj [])
    match extractIdentity req.topic body with
    | .ignored => stepOk ⟨200, .obj [("ignored", .bool true), ("topic", .str req.topic)]⟩
    | .err e => stepFail e
    | .ident email0 cid0 =>
      bindStep (backfill w body email0 cid0) fun ec =>
        if ec.1 == "" then stepOk ⟨400, missingIdentityBody req.topic⟩
        else
          match ec.2 with
          | none => stepOk ⟨400, missingIdentityBody req.topic⟩
          | some cid =>
            bindStep (fetchWithFallback w ec.1 cid) fun um =>
              let rawLoyalty := metaData um.2
              let norm := normalizeLoyalty rawLoyalty
              reconcile w UPDATE_ALL_DUPLICATES req.debugQ req.topic ec.1 norm
                (propsJson norm) um.1 um.2 rawLoyalty

/-- The pipeline inside hook.js's try block (lines 198–292). -/
def pipelineHook (w : World) (req : Request) : Step Response :=
  if !w.envOk then stepFail "Missing env var"
  else
    match extractIdentityHook req.topic (asJson w.jsonParse req.bodyPre (.obj [])) with
    | .ignored => stepOk ⟨200, .obj [("ignored", .bool true), ("topic", .str req.topic)]⟩
    | .err e => stepFail e
    | .ident email0 cid0 =>
      bindStep (backfillHook w email0 cid0) fun ec =>
        if ec.1 == "" then stepOk ⟨400, missingIdentityBody req.topic⟩
        else
          match ec.2 with
          | none => stepOk ⟨400, missingIdentityBody req.topic⟩
          | some cid =>
            bindStep (fetchWithFallback w ec.1 cid) fun um =>
              let rawLoyalty := metaData um.2
              let norm := normalizeLoyalty rawLoyalty
              reconcile w UPDATE_ALL_DUPLICATES req.debugQ req.topic ec.1 norm
                (propsJsonHook norm) um.1 um.2 rawLoyalty

/-- Source `module.exports` of hook.js (lines 188–297): the whole pipeline runs
inside a try/catch whose catch converts any thrown error into a 500
response embedding the error message — this revision never lets an
exception escape. -/
def handlerHook (w : World) (req : Request) : Response × List Call :=
  if req.method != "POST" then (⟨200, .str "OK"⟩, [])
  else
    match pipelineHook w req with
    | (.ok r, l) => (r, l)
    | (.error e, l) => (⟨500, .obj [("error", .str e)]⟩, l)

/-- A named field of a response's JSON body. -/
def respField (r : Response) (k : String) : Option JVal :=
  r.body.get k

/-! ## Concrete worlds and requests used as witnesses and
counterexamples -/

/-- A 200 response with the given JSON body. -/
def okResp (j : JVal) : HttpResp := ⟨200, some j, ""⟩

/-- World for the C1 scenario: every collaborator is healthy and the
Shopify email search would find customer id 42 for `a@b.c` — but the
handler never asks. -/
def wC1 : World :=
  { envOk := true, hmacOk := true
    jsonParse := fun _ => some (.obj [("email", .str "a@b.c")])
    customerGet := fun _ => .ok (okResp (.obj []))
    customerSearch := fun _ =>
      .ok (okResp (.obj [("customers", .arr [.obj [("id", .num (.finite 42))]])]))
    metafieldsGet := fun _ => .ok (okResp (.obj [("metafields", .arr [])]))
    hsSearchResp := fun _ => .ok (okResp (.obj [("results", .arr [])]))
    hsCreateResp := fun _ => .ok (okResp (.obj [("id", .str "900")]))
    hsPatchResp := fun _ _ => .ok (okResp (.obj [])) }

/-- Request `POST customers/update` whose body parses to `{email: "a@b.c"}`
(an email but no customer id). -/
def reqC1 : Request := ⟨"POST", "customers/update", "BODY", none, false, false⟩

/-- World for the C2 scenario: the pipeline runs cleanly until the
HubSpot contact search answers 500. -/
def wC2 : World :=
  { envOk := true, hmacOk := true
    jsonParse := fun _ => some (.obj [("id", .num (.finite 7)), ("email", .str "a@b.c")])
    customerGet := fun _ => .ok (okResp (.obj []))
    customerSearch := fun _ => .ok (okResp (.obj []))
    metafieldsGet := fun _ => .ok (okResp (.obj [("metafields", .arr [])]))
    hsSearchResp := fun _ => .ok ⟨500, none, "boom"⟩
    hsCreateResp := fun _ => .ok (okResp (.obj []))
    hsPatchResp := fun _ _ => .ok (okResp (.obj [])) }

/-- Request `POST customers/update` with both id 7 and email in the body. -/
def reqC2 : Request :=
  ⟨"POST", "customers/update", "BODY",
   some (.obj [("id", .num (.finite 7)), ("email", .str "a@b.c")]), false, false⟩

/-- World for the C3 witness: the metafield fetch 404s for id 7, the
email search finds id 42, and the metafield for 42 exists. -/
def wC3 : World :=
  { envOk := true, hmacOk := true
    jsonParse := fun s =>
      if s == "\x7b\"pts\":5\x7d" then some (.obj [("availablePoints", .num (.finite 5))]) else none
    customerGet := fun _ => .ok (okResp (.obj []))
    customerSearch := fun _ =>
      .ok (okResp (.obj [("customers", .arr [.obj [("id", .num (.finite 42))]])]))
    metafieldsGet := fun cid =>
      match cid with
      | .num (.finite q) =>
        if q = 7 then .ok ⟨404, some (.obj []), ""⟩
        else .ok (okResp (.obj [("metafields", .arr [.obj [("value", .str "\x7b\"pts\":5\x7d")]])]))
      | _ => .ok ⟨404, some (.obj []), ""⟩
    hsSearchResp := fun _ => .ok (okResp (.obj [("results", .arr [])]))
    hsCreateResp := fun _ => .ok (okResp (.obj []))
    hsPatchResp := fun _ _ => .ok (okResp (.obj [])) }

/-- C3 variant where the email re-resolution also finds nothing. -/
def wC3b : World :=
  { wC3 with
    customerSearch := fun _ => .ok (okResp (.obj [("customers", .arr [])]))
    metafieldsGet := fun _ => .ok ⟨404, some (.obj []), ""⟩ }

/-- World for C4: the HubSpot email search returns two contacts,
newest first, and patches succeed. -/
def wC4 : World :=
  { envOk := true, hmacOk := true
    jsonParse := fun _ => none
    customerGet := fun _ => .ok (okResp (.obj []))
    customerSearch := fun _ => .ok (okResp (.obj []))
    metafieldsGet := fun _ => .ok (okResp (.obj [("metafields", .arr [])]))
    hsSearchResp := fun _ => .ok (okResp (.obj [("results",
      .arr [.obj [("id", .str "111")], .obj [("id", .str "222")]])]))
    hsCreateResp := fun _ => .ok (okResp (.obj []))
    hsPatchResp := fun _ _ => .ok (okResp (.obj [])) }

/-- The all-default profile and its HubSpot properties, as produced from
an empty raw map. -/
def nEmpty : LoyaltyProfile := normalizeLoyalty (.obj [])

/-- HubSpot properties for the all-default profile. -/
def pEmpty : JVal := propsJson nEmpty

/-- C3 variant where the metafield endpoint answers a hard 500. -/
def wC3err : World :=
  { wC3 with metafieldsGet := fun _ => .ok ⟨500, none, "oops"⟩ }

/-! ## Helper lemmas about the normalizer -/

theorem normalize_enabled (raw : JVal) : (normalizeLoyalty raw).enabled = enabledOf raw := rfl

theorem normalize_points (raw : JVal) :
    (normalizeLoyalty raw).points = toNum (pointsCandidate raw) 0 := rfl

theorem normalize_referral (raw : JVal) :
    (normalizeLoyalty raw).referral = (chainLookup raw referralAliasKeys).getD (.str "") := rfl

theorem normalize_vipTier (raw : JVal) :
    (normalizeLoyalty raw).vipTier = (chainLookup raw vipAliasKeys).getD (.str "") := rfl

/-- A `??` chain yields `none` exactly when every key's value is absent
or null. -/
theorem chainLookup_eq_none_iff (raw : JVal) (ks : List String) :
    chainLookup raw ks = none ↔ ∀ k ∈ ks, isNullish (raw.get k) := by
  induction ks with
  | nil => simp [chainLookup]
  | cons k ks ih =>
    cases h : raw.get k with
    | none => simp [chainLookup, h, ih, isNullish]
    | some v => cases v <;> simp [chainLookup, h, ih, isNullish]

/-- A `??` chain yields the first present non-null value: if every key
before `k` is nullish and `k`'s value is a non-null `v`, the chain
returns `v`. -/
theorem chainLookup_first (raw : JVal) (pre post : List String) (k : String) (v : JVal)
    (hpre : ∀ k2 ∈ pre, isNullish (raw.get k2))
    (hk : raw.get k = some v) (hnn : v ≠ .null) :
    chainLookup raw (pre ++ k :: post) = some v := by
  induction pre with
  | nil =>
    cases v <;> simp_all [chainLookup, hk]
  | cons p pre ih =>
    have hp := hpre p (List.mem_cons_self p pre)
    have hrest : ∀ k2 ∈ pre, isNullish (raw.get k2) :=
      fun k2 hm => hpre k2 (List.mem_cons_of_mem p hm)
    rcases hp with hnone | hnull
    · simpa [chainLookup, hnone] using ih hrest
    · simpa [chainLookup, hnull] using ih hrest

/-! ## Claims about the payload normalizer -/

/-- C5: for every raw loyalty map, `normalizeLoyalty` is total and pure
(it is a plain function into `LoyaltyProfile`, so it performs no I/O and
never throws) and always returns all four fields, with the defaults
`points = 0`, `referral = ""`, `vipTier = ""` when the corresponding
inputs are absent. -/
theorem claim5_normalize_total_with_defaults (fs : List (String × JVal)) :
    (normalizeLoyalty (.obj fs) =
      ⟨enabledOf (.obj fs), toNum (pointsCandidate (.obj fs)) 0,
       (chainLookup (.obj fs) referralAliasKeys).getD (.str ""),
       (chainLookup (.obj fs) vipAliasKeys).getD (.str "")⟩) ∧
    ((∀ k ∈ pointsAliasKeys, (JVal.obj fs).get k = none) →
      ((JVal.obj fs).get "creditedPoints" = none ∨ (JVal.obj fs).get "spentAmount" = none) →
      (normalizeLoyalty (.obj fs)).points = 0) ∧
    ((∀ k ∈ referralAliasKeys, (JVal.obj fs).get k = none) →
      (normalizeLoyalty (.obj fs)).referral = .str "") ∧
    ((∀ k ∈ vipAliasKeys, (JVal.obj fs).get k = none) →
      (normalizeLoyalty (.obj fs)).vipTier = .str "") := by
  refine ⟨rfl, ?_, ?_, ?_⟩
  · intro habs hcs
    have hchain : chainLookup (.obj fs) pointsAliasKeys = none :=
      (chainLookup_eq_none_iff _ _).mpr (fun k hk => Or.inl (habs k hk))
    have hcand : pointsCandidate (.obj fs) = none := by
      rcases hcs with h | h <;> simp [pointsCandidate, hchain, h]
    simp [normalize_points, hcand, toNum]
  · intro habs
    have hchain : chainLookup (.obj fs) referralAliasKeys = none :=
      (chainLookup_eq_none_iff _ _).mpr (fun k hk => Or.inl (habs k hk))
    simp [normalize_referral, hchain]
  · intro habs
    have hchain : chainLookup (.obj fs) vipAliasKeys = none :=
      (chainLookup_eq_none_iff _ _).mpr (fun k hk => Or.inl (habs k hk))
    simp [normalize_vipTier, hchain]

/-- Witness for C5 at the empty raw map. -/
theorem claim5_normalize_total_with_defaults_witness :
    (normalizeLoyalty (.obj [])).points = 0 ∧
    (normalizeLoyalty (.obj [])).referral = .str "" ∧
    (normalizeLoyalty (.obj [])).vipTier = .str "" := by
  have h := claim5_normalize_total_with_defaults []
  exact ⟨h.2.1 (fun k _ => rfl) (Or.inl rfl), h.2.2.1 (fun k _ => rfl),
         h.2.2.2 (fun k _ => rfl)⟩

/-- C6: alias precedence for points is fixed, current name first: a
present non-null `availablePoints` wins over any legacy alias with a
different value; and in general, the first key in the fixed order
`availablePoints, pointBalance, pointsBalance, balance, points,
point_balance` whose value is present and non-null is selected. -/
theorem claim6_points_alias_precedence :
    (∀ (fs : List (String × JVal)) (v w2 : JVal) (legacy : String),
      (JVal.obj fs).get "availablePoints" = some v → v ≠ .null →
      legacy ∈ ["pointBalance", "pointsBalance", "balance", "points", "point_balance"] →
      (JVal.obj fs).get legacy = some w2 → w2 ≠ v →
      pointsCandidate (.obj fs) = some v ∧
        (normalizeLoyalty (.obj fs)).points = toNum (some v) 0) ∧
    (∀ (raw : JVal) (pre post : List String) (k : String) (v : JVal),
      pointsAliasKeys = pre ++ k :: post →
      (∀ k2 ∈ pre, isNullish (raw.get k2)) →
      raw.get k = some v → v ≠ .null →
      pointsCandidate raw = some v ∧
        (normalizeLoyalty raw).points = toNum (some v) 0) := by
  constructor
  · intro fs v w2 legacy hv hnn _ _ _
    have hchain : chainLookup (.obj fs) pointsAliasKeys = some v := by
      have h := chainLookup_first (.obj fs) []
        ["pointBalance", "pointsBalance", "balance", "points", "point_balance"]
        "availablePoints" v (by simp) hv hnn
      simpa [pointsAliasKeys] using h
    exact ⟨by simp [pointsCandidate, hchain],
           by simp [normalize_points, pointsCandidate, hchain]⟩
  · intro raw pre post k v heq hpre hk hnn
    have hchain : chainLookup raw pointsAliasKeys = some v := by
      rw [heq]; exact chainLookup_first raw pre post k v hpre hk hnn
    exact ⟨by simp [pointsCandidate, hchain],
           by simp [normalize_points, pointsCandidate, hchain]⟩

/-- Witness for C6: `availablePoints: 5` beats the legacy `points: 7`. -/
theorem claim6_points_alias_precedence_witness :
    pointsCandidate (.obj [("availablePoints", .num (.finite 5)), ("points", .num (.finite 7))]) =
      some (.num (.finite 5)) ∧
    (normalizeLoyalty (.obj [("availablePoints", .num (.finite 5)),
      ("points", .num (.finite 7))])).points = 5 := by
  have h := claim6_points_alias_precedence.1
    [("availablePoints", .num (.finite 5)), ("points", .num (.finite 7))]
    (.num (.finite 5)) (.num (.finite 7)) "points"
    rfl (fun hcon => nomatch hcon) (by simp) rfl
    (by intro hcon; injection hcon with h1; injection h1 with h2; exact absurd h2 (by norm_num))
  exact ⟨h.1, by rw [h.2]; decide⟩

/-- C7: numeric robustness of points parsing — the selected candidate
`"1,234"` normalizes to 1234 (grouping commas stripped), `"abc"` to 0,
no points-like key to 0; and `toNum` never propagates a non-finite
value: its result is the default or a finite number. -/
theorem claim7_points_numeric_robustness (fs : List (String × JVal)) :
    (pointsCandidate (.obj fs) = some (.str "1,234") →
      (normalizeLoyalty (.obj fs)).points = 1234) ∧
    (pointsCandidate (.obj fs) = some (.str "abc") →
      (normalizeLoyalty (.obj fs)).points = 0) ∧
    ((∀ k ∈ pointsAliasKeys, (JVal.obj fs).get k = none) →
      ((JVal.obj fs).get "creditedPoints" = none ∨ (JVal.obj fs).get "spentAmount" = none) →
      (normalizeLoyalty (.obj fs)).points = 0) ∧
    (∀ (v : JVal) (d : ℚ), toNum (some v) d = d ∨
      ∃ q : ℚ, numCoerce v = .finite q ∧ toNum (some v) d = q) := by
  refine ⟨?_, ?_, ?_, ?_⟩
  · intro h; rw [normalize_points, h]; decide
  · intro h; rw [normalize_points, h]; decide
  · intro habs hcs
    have hchain : chainLookup (.obj fs) pointsAliasKeys = none :=
      (chainLookup_eq_none_iff _ _).mpr (fun k hk => Or.inl (habs k hk))
    have hcand : pointsCandidate (.obj fs) = none := by
      rcases hcs with h | h <;> simp [pointsCandidate, hchain, h]
    simp [normalize_points, hcand, toNum]
  · intro v d
    have step : ∀ x : JVal,
        toNum (some x) d = (match numCoerce x with | .finite q => q | _ => d) →
        toNum (some x) d = d ∨ ∃ q : ℚ, numCoerce x = .finite q ∧ toNum (some x) d = q := by
      intro x hx
      cases hq : numCoerce x with
      | finite q => exact Or.inr ⟨q, rfl, by rw [hx, hq]⟩
      | nan => exact Or.inl (by rw [hx, hq])
      | posInf => exact Or.inl (by rw [hx, hq])
      | negInf => exact Or.inl (by rw [hx, hq])
    cases v with
    | null => exact Or.inl rfl
    | bool b => exact step _ rfl
    | num n => exact step _ rfl
    | str s => exact step _ rfl
    | obj o => exact step _ rfl
    | arr a => exact step _ rfl

/-- Witness for C7 at the three concrete inputs of the claim. -/
theorem claim7_points_numeric_robustness_witness :
    (normalizeLoyalty (.obj [("points", .str "1,234")])).points = 1234 ∧
    (normalizeLoyalty (.obj [("points", .str "abc")])).points = 0 ∧
    (normalizeLoyalty (.obj [])).points = 0 :=
  ⟨(claim7_points_numeric_robustness [("points", .str "1,234")]).1 rfl,
   (claim7_points_numeric_robustness [("points", .str "abc")]).2.1 rfl,
   (claim7_points_numeric_robustness []).2.2.1 (fun _ _ => rfl) (Or.inl rfl)⟩

/-- C8: the enabled flag — an explicit `enabled` key is coerced by the
permissive boolean parser (`true`, `"true"`, `1`, `"1"` are true,
everything else false); with no `enabled` key, enabled is true exactly
when the raw map is non-empty. -/
theorem claim8_enabled_flag (fs : List (String × JVal)) :
    (∀ v, (JVal.obj fs).get "enabled" = some v →
      ((normalizeLoyalty (.obj fs)).enabled = bool v ∧
        (bool v = true ↔
          (v = .bool true ∨ v = .str "true" ∨ v = .num (.finite 1) ∨ v = .str "1")))) ∧
    ((JVal.obj fs).get "enabled" = none →
      ((normalizeLoyalty (.obj fs)).enabled = true ↔ fs ≠ [])) := by
  constructor
  · intro v hv
    refine ⟨by simp [normalize_enabled, enabledOf, hv], ?_⟩
    cases v with
    | null => simp [bool]
    | bool b => simp [bool]
    | num n => cases n <;> simp [bool]
    | str s => simp [bool]
    | obj o => simp [bool]
    | arr a => simp [bool]
  · intro h
    cases fs with
    | nil => simp [normalize_enabled, enabledOf, h, hasDataJ, JVal.get]
    | cons p fs2 => simp [normalize_enabled, enabledOf, h, hasDataJ]

/-- Witness for C8: explicit `"1"` gives true, explicit `0` gives
false, no flag with data gives true, the empty map gives false. -/
theorem claim8_enabled_flag_witness :
    (normalizeLoyalty (.obj [("enabled", .str "1"), ("points", .num (.finite 3))])).enabled = true ∧
    (normalizeLoyalty (.obj [("enabled", .num (.finite 0)),
      ("points", .num (.finite 3))])).enabled = false ∧
    (normalizeLoyalty (.obj [("vipTier", .str "Gold")])).enabled = true ∧
    (normalizeLoyalty (.obj [])).enabled = false := by
  have h1 := (claim8_enabled_flag [("enabled", .str "1"), ("points", .num (.finite 3))]).1
    (.str "1") rfl
  have h2 := (claim8_enabled_flag [("enabled", .num (.finite 0)), ("points", .num (.finite 3))]).1
    (.num (.finite 0)) rfl
  have h3 := (claim8_enabled_flag [("vipTier", .str "Gold")]).2 rfl
  have h4 := (claim8_enabled_flag []).2 rfl
  refine ⟨h1.1.trans rfl, h2.1.trans (by decide), h3.mpr (by simp), ?_⟩
  simpa using h4

/-- C9: an alias that is present with a defined non-null but
unparseable value is still selected by the chain (so the
credited-minus-spent difference is shadowed), the difference is
consulted exactly when every alias is undefined or null, and the
concrete map `{points: "abc", creditedPoints: 10, spentAmount: 3}`
yields 0, not 7. -/
theorem claim9_unparseable_alias_shadows_difference (fs : List (String × JVal)) :
    (∀ v, chainLookup (.obj fs) pointsAliasKeys = some v →
      pointsCandidate (.obj fs) = some v ∧
        (normalizeLoyalty (.obj fs)).points = toNum (some v) 0) ∧
    (chainLookup (.obj fs) pointsAliasKeys = none ↔
      ∀ k ∈ pointsAliasKeys, isNullish ((JVal.obj fs).get k)) ∧
    (∀ c s, chainLookup (.obj fs) pointsAliasKeys = none →
      (JVal.obj fs).get "creditedPoints" = some c →
      (JVal.obj fs).get "spentAmount" = some s →
      pointsCandidate (.obj fs) =
        some (.num (.finite (toNum ((JVal.obj fs).get "creditedPoints") 0 -
                             toNum ((JVal.obj fs).get "spentAmount") 0)))) ∧
    (normalizeLoyalty (.obj [("points", .str "abc"),
      ("creditedPoints", .num (.finite 10)), ("spentAmount", .num (.finite 3))])).points = 0 := by
  refine ⟨?_, chainLookup_eq_none_iff _ _, ?_, by decide⟩
  · intro v h
    exact ⟨by simp [pointsCandidate, h], by simp [normalize_points, pointsCandidate, h]⟩
  · intro c s hchain hc hs
    simp [pointsCandidate, hchain, hc, hs]

/-- Witness for C9: the unparseable `points: "abc"` is selected and
yields 0 although credited/spent are both numeric. -/
theorem claim9_unparseable_alias_shadows_difference_witness :
    pointsCandidate (.obj [("points", .str "abc"), ("creditedPoints", .num (.finite 10)),
      ("spentAmount", .num (.finite 3))]) = some (.str "abc") ∧
    (normalizeLoyalty (.obj [("points", .str "abc"), ("creditedPoints", .num (.finite 10)),
      ("spentAmount", .num (.finite 3))])).points = 0 := by
  have h := (claim9_unparseable_alias_shadows_difference
    [("points", .str "abc"), ("creditedPoints", .num (.finite 10)),
     ("spentAmount", .num (.finite 3))]).1 (.str "abc") rfl
  exact ⟨h.1, by rw [h.2]; decide⟩

/-! ## Claims about the loyalty fetcher's fallback -/

/-- C3: a 404 metafield response yields the not-found marker without
throwing; any other non-2xx response is thrown as a hard error; on
not-found the id is re-resolved by email search and the fetch retried
exactly once with the found id; when the re-resolution finds no id the
result is still the not-found marker (no error), and normalization of
its empty raw map yields the all-default profile. -/
theorem claim3_metafield_not_found_fallback (w : World) (email : String) (cid id2 : JVal) :
    (∀ j t, w.metafieldsGet cid = .ok ⟨404, j, t⟩ →
      getLoyaltyByCustomerId w cid = (.ok .notFound, [.shopifyMetafields cid])) ∧
    (∀ st j t, w.metafieldsGet cid = .ok ⟨st, j, t⟩ → st ≠ 404 → ¬(200 ≤ st ∧ st < 300) →
      getLoyaltyByCustomerId w cid =
        (.error ("Shopify metafield fetch failed: " ++ toString st ++ " " ++ t),
         [.shopifyMetafields cid])) ∧
    (∀ l2 res3 l3,
      getLoyaltyByCustomerId w cid = (.ok .notFound, [.shopifyMetafields cid]) →
      getCustomerIdByEmail w email = (.ok (some id2), l2) →
      getLoyaltyByCustomerId w id2 = (res3, l3) →
      fetchWithFallback w email cid =
        (res3.map (fun m => (id2, m)), [.shopifyMetafields cid] ++ l2 ++ l3)) ∧
    (∀ l2,
      getLoyaltyByCustomerId w cid = (.ok .notFound, [.shopifyMetafields cid]) →
      getCustomerIdByEmail w email = (.ok none, l2) →
      fetchWithFallback w email cid = (.ok (cid, .notFound), [.shopifyMetafields cid] ++ l2)) ∧
    normalizeLoyalty (metaData .notFound) = ⟨false, 0, .str "", .str ""⟩ := by
  refine ⟨?_, ?_, ?_, ?_, rfl⟩
  · intro j t h
    simp [getLoyaltyByCustomerId, h]
  · intro st j t h hne hrange
    have hbeq : (st == 404) = false := by simpa using hne
    have hok : HttpResp.isOk ⟨st, j, t⟩ = false := by
      simp only [HttpResp.isOk, Bool.and_eq_false_iff, decide_eq_false_iff_not]
      omega
    simp [getLoyaltyByCustomerId, h, hbeq, hok]
  · intro l2 res3 l3 h1 h2 h3
    cases res3 with
    | ok m => simp [fetchWithFallback, bindStep, stepOk, h1, h2, h3, Except.map]
    | error e => simp [fetchWithFallback, bindStep, stepOk, h1, h2, h3, Except.map]
  · intro l2 h1 h2
    simp [fetchWithFallback, bindStep, stepOk, h1, h2]

/-- Witness for C3: with `wC3` the fetch for id 7 404s, the email search
finds 42, and the retry returns 42's record; with `wC3b` both lookups
miss and the not-found marker survives; with `wC3err` a 500 is thrown. -/
theorem claim3_metafield_not_found_fallback_witness :
    fetchWithFallback wC3 "a@b.c" (.num (.finite 7)) =
      (.ok (.num (.finite 42),
        .found (.obj [("availablePoints", .num (.finite 5))]) (.str "\x7b\"pts\":5\x7d")),
       [.shopifyMetafields (.num (.finite 7)), .shopifyCustomerSearch "a@b.c",
        .shopifyMetafields (.num (.finite 42))]) ∧
    fetchWithFallback wC3b "a@b.c" (.num (.finite 7)) =
      (.ok (.num (.finite 7), .notFound),
       [.shopifyMetafields (.num (.finite 7)), .shopifyCustomerSearch "a@b.c"]) ∧
    getLoyaltyByCustomerId wC3err (.num (.finite 7)) =
      (.error "Shopify metafield fetch failed: 500 oops",
       [.shopifyMetafields (.num (.finite 7))]) ∧
    normalizeLoyalty (metaData .notFound) = ⟨false, 0, .str "", .str ""⟩ := by
  have h := claim3_metafield_not_found_fallback wC3 "a@b.c" (.num (.finite 7)) (.num (.finite 42))
  have hb := claim3_metafield_not_found_fallback wC3b "a@b.c" (.num (.finite 7)) (.num (.finite 7))
  have he := claim3_metafield_not_found_fallback wC3err "a@b.c" (.num (.finite 7)) (.num (.finite 7))
  refine ⟨?_, ?_, ?_, h.2.2.2.2⟩
  · exact h.2.2.1 [.shopifyCustomerSearch "a@b.c"]
      (.ok (.found (.obj [("availablePoints", .num (.finite 5))]) (.str "\x7b\"pts\":5\x7d")))
      [.shopifyMetafields (.num (.finite 42))] rfl rfl rfl
  · exact hb.2.2.2.1 [.shopifyCustomerSearch "a@b.c"] rfl rfl
  · exact he.2.1 500 none "oops" rfl (by decide) (by omega)

/-! ## Claims about the contact reconciler -/

/-- All patches of a duplicate fan-out succeed: the group succeeds and
every listed contact is patched, in order. -/
theorem patchAll_ok (w : World) (props : JVal) (ids : List (Option JVal))
    (hp : ∀ id ∈ ids, hsPatchContact w id props = (.ok (), [.hubspotPatch id props])) :
    patchAll w props ids = (.ok (), ids.map (fun i => .hubspotPatch i props)) := by
  induction ids with
  | nil => rfl
  | cons i rest ih =>
    have hi := hp i (List.mem_cons_self i rest)
    have hr := ih (fun id hm => hp id (List.mem_cons_of_mem i hm))
    simp [patchAll, bindStep, hi, hr]

/-- C4 counterexample: with two matching contacts `111` (newest) and
`222` under the update-newest-only policy, the response's `duplicates`
field lists all matched ids — including the updated `111` — and not
just the non-updated rest (`["222"]`) as the claim states. -/
theorem claim4_duplicates_report_counterexample :
    reconcile wC4 false false "customers/update" "a@b.c" nEmpty pEmpty (.num (.finite 7))
        (.found (.obj []) .null) (.obj []) =
      (.ok ⟨200, .obj [("ok", .bool true), ("updated", .str "111"), ("email", .str "a@b.c"),
        ("duplicates", .arr [.str "111", .str "222"]), ("topic", .str "customers/update"),
        ("loyalty", profileJson nEmpty)]⟩,
       [.hubspotSearch "a@b.c", .hubspotPatch (some (.str "111")) pEmpty]) ∧
    (JVal.arr [.str "111", .str "222"]) ≠ (JVal.arr [.str "222"]) := by
  refine ⟨rfl, ?_⟩
  intro hcon
  simp at hcon

/-- C4 amended: when the CRM search returns more than one contact —
under update-all every returned contact is patched and the response's
`duplicatesUpdated` lists every id; under update-newest-only exactly one
patch is issued, to `ids[0]` (the most recently created, as the search
returns newest first), and the response's `duplicates` field reports
ALL matched ids (including the updated one), not only the rest. -/
theorem claim4_duplicate_policy_amended (w : World) (debugQ : Bool) (topic email : String)
    (norm : LoyaltyProfile) (props : JVal) (usedId : JVal) (meta : MetaResult) (rawLoyalty : JVal)
    (ids : List (Option JVal))
    (hs : hsSearchContactIdsByEmail w email = (.ok ids, [.hubspotSearch email]))
    (hlen : 2 ≤ ids.length)
    (hp : ∀ id ∈ ids, hsPatchContact w id props = (.ok (), [.hubspotPatch id props])) :
    (∃ resp : Response,
      reconcile w true debugQ topic email norm props usedId meta rawLoyalty =
        (.ok resp, .hubspotSearch email :: ids.map (fun i => .hubspotPatch i props)) ∧
      resp.status = 200 ∧
      respField resp "duplicatesUpdated" = some (.arr (ids.map optToJs))) ∧
    (∃ resp : Response,
      reconcile w false debugQ topic email norm props usedId meta rawLoyalty =
        (.ok resp, [.hubspotSearch email, .hubspotPatch ((ids.get? 0).getD none) props]) ∧
      resp.status = 200 ∧
      respField resp "updated" = (ids.get? 0).getD none ∧
      respField resp "duplicates" = some (.arr (ids.map optToJs))) := by
  match ids, hlen with
  | a :: b :: t, _ =>
    have hpa := patchAll_ok w props (a :: b :: t) hp
    have hpatchA : hsPatchContact w a props = (.ok (), [.hubspotPatch a props]) :=
      hp a (List.mem_cons_self a (b :: t))
    constructor
    · refine ⟨⟨200, mkObj ([("ok", some (.bool true)),
        ("duplicatesUpdated", some (.arr ((a :: b :: t).map optToJs))),
        ("email", some (.str email)), ("topic", some (.str topic)),
        ("loyalty", some (profileJson norm))] ++
          debugFields debugQ usedId meta rawLoyalty)⟩, ?_, rfl, ?_⟩
      · simp [reconcile, bindStep, stepOk, hs, hpa]
      · cases debugQ <;> simp [respField, mkObj, JVal.get, List.lookup, debugFields, optToJs]
    · refine ⟨⟨200, mkObj ([("ok", some (.bool true)), ("updated", a),
        ("email", some (.str email)),
        ("duplicates", some (.arr ((a :: b :: t).map optToJs))),
        ("topic", some (.str topic)),
        ("loyalty", some (profileJson norm))] ++
          debugFields debugQ usedId meta rawLoyalty)⟩, ?_, rfl, ?_, ?_⟩
      · simp [reconcile, bindStep, stepOk, hs, hpatchA]
      · cases a <;> cases debugQ <;> simp [respField, mkObj, JVal.get, List.lookup, debugFields]
      · cases a <;> cases debugQ <;> simp [respField, mkObj, JVal.get, List.lookup, debugFields, optToJs]

/-- Witness for C4's amended statement at the concrete two-duplicate
world. -/
theorem claim4_duplicate_policy_amended_witness :
    (∃ resp : Response,
      reconcile wC4 true false "customers/update" "a@b.c" nEmpty pEmpty (.num (.finite 7))
          (.found (.obj []) .null) (.obj []) =
        (.ok resp, .hubspotSearch "a@b.c" ::
          [some (.str "111"), some (.str "222")].map (fun i => .hubspotPatch i pEmpty)) ∧
      resp.status = 200 ∧
      respField resp "duplicatesUpdated" =
        some (.arr ([some (.str "111"), some (.str "222")].map optToJs))) ∧
    (∃ resp : Response,
      reconcile wC4 false false "customers/update" "a@b.c" nEmpty pEmpty (.num (.finite 7))
          (.found (.obj []) .null) (.obj []) =
        (.ok resp, [.hubspotSearch "a@b.c",
          .hubspotPatch (([some (.str "111"), some (.str "222")].get? 0).getD none) pEmpty]) ∧
      resp.status = 200 ∧
      respField resp "updated" = ([some (.str "111"), some (.str "222")].get? 0).getD none ∧
      respField resp "duplicates" =
        some (.arr ([some (.str "111"), some (.str "222")].map optToJs))) :=
  claim4_duplicate_policy_amended wC4 false "customers/update" "a@b.c" nEmpty pEmpty
    (.num (.finite 7)) (.found (.obj []) .null) (.obj [])
    [some (.str "111"), some (.str "222")] rfl (by decide) (fun id _ => rfl)

/-! ## Claims about the dispatcher -/

/-- C10: a POST with a recognized topic whose body is not parseable
JSON never escapes as a parse exception: `asJson` falls back to the
empty object (and gives the fallback for any unparseable string or
non-object input), extraction finds neither email nor customer id, and
the handler answers 400 without issuing a single collaborator call. -/
theorem claim10_unparseable_body_yields_400 (w : World) (req : Request)
    (hm : req.method = "POST")
    (ht : jsStartsWith req.topic "customers/" = true ∨ req.topic = "orders/paid" ∨
      jsStartsWith req.topic "orders/" = true)
    (henv : w.envOk = true)
    (hhmac : req.skipHmacQ = true ∨ w.hmacOk = true)
    (hparse : w.jsonParse req.rawBody = none) :
    asJson w.jsonParse (some (.str req.rawBody)) (.obj []) = .obj [] ∧
    handler w req = (.ok ⟨400, missingIdentityBody req.topic⟩, []) ∧
    (∀ s fb, w.jsonParse s = none → asJson w.jsonParse (some (.str s)) fb = fb) ∧
    (∀ fb, asJson w.jsonParse none fb = fb ∧ asJson w.jsonParse (some .null) fb = fb ∧
      (∀ b, asJson w.jsonParse (some (.bool b)) fb = fb) ∧
      (∀ n, asJson w.jsonParse (some (.num n)) fb = fb)) := by
  have hbody : asJson w.jsonParse (some (.str req.rawBody)) (.obj []) = .obj [] := by
    simp [asJson, hparse]
  have hext : extractIdentity req.topic (.obj []) = .ident "" none := by
    by_cases hcu : jsStartsWith req.topic "customers/"
    · simp [extractIdentity, hcu, firstTruthy, lowerOrEmpty, JVal.get, truthyOpt, oget]
    · rcases ht with h | h | h
      · exact absurd h hcu
      · rw [h]; rfl
      · simp [extractIdentity, hcu, h, firstTruthy, lowerOrEmpty, JVal.get, truthyOpt, oget]
  have hback : backfill w (.obj []) "" none = (.ok ("", none), []) := rfl
  have hhm : (!req.skipHmacQ && !w.hmacOk) = false := by
    rcases hhmac with h | h <;> simp [h]
  refine ⟨hbody, ?_, fun s fb hp => by simp [asJson, hp],
    fun fb => ⟨rfl, rfl, fun b => rfl, fun n => rfl⟩⟩
  simp [handler, hm, henv, hhm, hbody, hext, hback, bindStep, stepOk]

/-- Witness for C10 at a concrete unparseable-body request. -/
theorem claim10_unparseable_body_yields_400_witness :
    handler wC4 ⟨"POST", "customers/update", "not json", none, false, false⟩ =
      (.ok ⟨400, missingIdentityBody "customers/update"⟩, []) :=
  (claim10_unparseable_body_yields_400 wC4
    ⟨"POST", "customers/update", "not json", none, false, false⟩
    rfl (Or.inl (by decide)) rfl (Or.inr rfl) rfl).2.1

/-- C1 (claim refuted by the code): on a `customers/update` event whose
body carries an email but no id, the handler answers 400 without ever
calling the Shopify email search — although that search (dead code
behind the `if (!email)` guard) would have found id 42 in this world.
The claim says the id is looked up by email, adopted, and 400 is
returned only when both stay unset. -/
theorem claim1_email_without_id_rejected_without_lookup :
    handler wC1 reqC1 = (.ok ⟨400, missingIdentityBody "customers/update"⟩, []) ∧
    getCustomerIdByEmail wC1 "a@b.c" =
      (.ok (some (.num (.finite 42))), [.shopifyCustomerSearch "a@b.c"]) :=
  ⟨rfl, rfl⟩

/-- Sequencing a step that came out `ok`: the first component
decomposes through `bindStep`. -/
theorem bindStep_fst_ok {α β : Type} (x : Step α) (f : α → Step β) (b : β)
    (h : (bindStep x f).1 = .ok b) : ∃ a, x.1 = .ok a ∧ (f a).1 = .ok b := by
  obtain ⟨ex, lx⟩ := x
  cases ex with
  | error e => simp [bindStep] at h
  | ok a => exact ⟨a, rfl, by simpa [bindStep] using h⟩

/-- Every non-thrown outcome of the reconciler is a 200 response. -/
theorem reconcile_ok_status (w : World) (updateAll debugQ : Bool) (topic email : String)
    (norm : LoyaltyProfile) (props : JVal) (usedId : JVal) (meta : MetaResult)
    (rawLoyalty : JVal) (r : Response)
    (h : (reconcile w updateAll debugQ topic email norm props usedId meta rawLoyalty).1 = .ok r) :
    r.status = 200 := by
  unfold reconcile at h
  obtain ⟨ids, -, hf⟩ := bindStep_fst_ok _ _ _ h
  split at hf
  · obtain ⟨nid, -, hf2⟩ := bindStep_fst_ok _ _ _ hf
    obtain ⟨u, -, hf3⟩ := bindStep_fst_ok _ _ _ hf2
    simp [stepOk] at hf3
    rw [← hf3]
  · split at hf
    · obtain ⟨u, -, hf2⟩ := bindStep_fst_ok _ _ _ hf
      simp [stepOk] at hf2
      rw [← hf2]
    · obtain ⟨u, -, hf2⟩ := bindStep_fst_ok _ _ _ hf
      simp [stepOk] at hf2
      rw [← hf2]

/-- Every non-thrown outcome of hook.js's pipeline is a 200 or a 400. -/
theorem pipelineHook_ok_status (w : World) (req : Request) (r : Response) (l : List Call)
    (h : pipelineHook w req = (.ok r, l)) : r.status = 200 ∨ r.status = 400 := by
  have h1 : (pipelineHook w req).1 = .ok r := by rw [h]
  unfold pipelineHook at h1
  split at h1
  · simp [stepFail] at h1
  · split at h1
    · simp [stepOk] at h1
      left; rw [← h1]
    · simp [stepFail] at h1
    · obtain ⟨ec, -, hf⟩ := bindStep_fst_ok _ _ _ h1
      split at hf
      · simp [stepOk] at hf
        right; rw [← hf]
      · split at hf
        · simp [stepOk] at hf
          right; rw [← hf]
        · obtain ⟨um, -, hf2⟩ := bindStep_fst_ok _ _ _ hf
          exact Or.inl (reconcile_ok_status _ _ _ _ _ _ _ _ _ _ _ hf2)

/-- The hook.js handler is total for every world and request: its catch
converts any thrown stage failure into a 500 whose body embeds the
message, so the webhook sender always receives a definitive 200, 400 or
500 — the propagation policy the specification describes.  (The
part_000 revision has no such catch; see the C2 theorem.) -/
theorem hookHandler_always_definitive_status (w : World) (req : Request) :
    ((handlerHook w req).1.status = 200 ∨ (handlerHook w req).1.status = 400 ∨
      (handlerHook w req).1.status = 500) ∧
    (req.method = "POST" → ∀ e l, pipelineHook w req = (.error e, l) →
      (handlerHook w req).1 = ⟨500, .obj [("error", .str e)]⟩) := by
  constructor
  · unfold handlerHook
    split
    · exact Or.inl rfl
    · split
      · rename_i r l heq
        rcases pipelineHook_ok_status w req r l heq with h | h
        · exact Or.inl h
        · exact Or.inr (Or.inl h)
      · exact Or.inr (Or.inr rfl)
  · intro hm e l he
    unfold handlerHook
    split
    · rename_i hpost
      simp [hm] at hpost
    · split
      · rename_i r l2 heq
        rw [he] at heq
        simp at heq
      · rename_i e2 l2 heq
        rw [he] at heq
        simp at heq
        rw [heq.1]

/-- C2 (claim refuted by the part_000 revision): a HubSpot search
failure after authenticity verification escapes the part_000 handler
uncaught (there is no try/catch around its pipeline), while the hook.js
revision's top-level catch converts the same failure into the 500 JSON
response the claim describes. -/
theorem claim2_stage_failure_escapes_uncaught :
    handler wC2 reqC2 =
      (.error "HubSpot search failed: 500 boom",
       [.shopifyMetafields (.num (.finite 7)), .hubspotSearch "a@b.c"]) ∧
    handlerHook wC2 reqC2 =
      (⟨500, .obj [("error", .str "HubSpot search failed: 500 boom")]⟩,
       [.shopifyMetafields (.num (.finite 7)), .hubspotSearch "a@b.c"]) :=
  ⟨rfl, rfl⟩

end LoyaltySync
